import Mathlib

/-!
# Verification of the LostLove Protocol (LLP) server core

Shallow embedding of the server's wire codec, crypto core and session
plane (from `src/server/src/`), with theorems settling the spec claims.

Machine integers (`u8`, `u16`, `u64`, `usize`) are modelled as `Nat`
with explicit bounds / `% 2^w` where overflow matters.  Fallible Rust
code returning `Result<T, LostLoveError>` is modelled as
`Except LLError t`.
-/

namespace LLP

/-! ## Error taxonomy (`src/server/src/error.rs`)

The `Crypto` constructor is referenced by `crypto/hse.rs` and
`crypto/keys.rs` even though `error.rs` does not declare such a
variant; it is included here so those modules can be embedded. -/

inductive LLError where
  | Io (msg : String)
  | InvalidProtocolId (id : Nat)
  | InvalidPacketType (ty : Nat)
  | InsufficientData (expected actual : Nat)
  | ChecksumMismatch (expected actual : Nat)
  | InvalidSequence (n : Nat)
  | TimestampTooOld (t : Nat)
  | Connection (msg : String)
  | TooManyConnections
  | SessionNotFound (id : String)
  | Config (msg : String)
  | Network (msg : String)
  | HandshakeFailed (msg : String)
  | Crypto (msg : String)
deriving DecidableEq, Repr

/-! ## Big-endian byte encoding

`bytes::BufMut::put_u16 / put_u64` write big-endian; `get_u16 / get_u64`
read big-endian.  A `w`-byte big-endian encoding of a `Nat`, and the
value of a big-endian byte list. -/

/-- Big-endian byte encoding of `n` on `w` bytes (most significant first). -/
def beBytes : Nat → Nat → List Nat
  | 0, _ => []
  | w + 1, n => beBytes w (n / 256) ++ [n % 256]

/-- Value of a big-endian byte list. -/
def beVal (l : List Nat) : Nat :=
  l.foldl (fun a b => a * 256 + b) 0

theorem length_beBytes (w n : Nat) : (beBytes w n).length = w := by
  induction w generalizing n with
  | zero => rfl
  | succ w ih => simp [beBytes, ih]

theorem beBytes_lt (w n : Nat) : ∀ b ∈ beBytes w n, b < 256 := by
  induction w generalizing n with
  | zero => simp [beBytes]
  | succ w ih =>
    intro b hb
    simp only [beBytes, List.mem_append, List.mem_singleton] at hb
    rcases hb with h | h
    · exact ih _ _ h
    · subst h; exact Nat.mod_lt _ (by norm_num)

theorem beVal_append_singleton (l : List Nat) (b : Nat) :
    beVal (l ++ [b]) = beVal l * 256 + b := by
  simp [beVal, List.foldl_append]

/-- Decoding inverts encoding on in-range values. -/
theorem beVal_beBytes (w n : Nat) (h : n < 256 ^ w) :
    beVal (beBytes w n) = n := by
  induction w generalizing n with
  | zero =>
    interval_cases n
    rfl
  | succ w ih =>
    have hdiv : n / 256 < 256 ^ w := by
      rw [Nat.div_lt_iff_lt_mul (by norm_num)]
      calc n < 256 ^ (w + 1) := h
        _ = 256 ^ w * 256 := by ring
    rw [beBytes, beVal_append_singleton, ih _ hdiv]
    omega

/-- Encoding inverts decoding on byte lists. -/
theorem beBytes_beVal (l : List Nat) (hl : ∀ b ∈ l, b < 256) :
    beBytes l.length (beVal l) = l := by
  induction l using List.reverseRecOn with
  | nil => rfl
  | append_singleton l b ih =>
    have hb : b < 256 := hl b (by simp)
    have hl' : ∀ x ∈ l, x < 256 := fun x hx => hl x (by simp [hx])
    rw [beVal_append_singleton]
    have hlen : (l ++ [b]).length = l.length + 1 := by simp
    rw [hlen, beBytes]
    have h1 : (beVal l * 256 + b) / 256 = beVal l := by omega
    have h2 : (beVal l * 256 + b) % 256 = b := by omega
    rw [h1, h2, ih hl']

/-! ## CRC-16/CCITT (`PacketHeader::calculate_checksum`)

Polynomial `0x1021`, initial value `0xFFFF`, no reflection, no final
XOR.  `u16` arithmetic is modelled as `Nat` masked by `% 2 ^ 16`. -/

/-- One shift-and-conditionally-xor step of the CRC-16 inner loop
(the body of `for _ in 0..8`). -/
def crcStep (c : Nat) : Nat :=
  if c.testBit 15 then ((c <<< 1) ^^^ 0x1021) % 2 ^ 16
  else (c <<< 1) % 2 ^ 16

/-- Eight CRC bit steps. -/
def crcStep8 (c : Nat) : Nat :=
  crcStep (crcStep (crcStep (crcStep (crcStep (crcStep (crcStep (crcStep c)))))))

/-- Fold one input byte into the CRC state (`crc ^= byte << 8` then
eight bit steps).  The byte is masked to 8 bits as in Rust's `u8`. -/
def crcByteStep (c b : Nat) : Nat :=
  crcStep8 (c ^^^ (b % 256) <<< 8)

/-- CRC-16/CCITT of a byte list, initial state `0xFFFF`. -/
def crc16 (data : List Nat) : Nat :=
  data.foldl crcByteStep 0xFFFF

theorem crcStep_lt (c : Nat) : crcStep c < 2 ^ 16 := by
  unfold crcStep
  split <;> exact Nat.mod_lt _ (by norm_num)

theorem crcStep8_lt (c : Nat) : crcStep8 c < 2 ^ 16 := crcStep_lt _

theorem crcByteStep_lt (c b : Nat) : crcByteStep c b < 2 ^ 16 := crcStep8_lt _

theorem crc16_lt (data : List Nat) : crc16 data < 2 ^ 16 := by
  unfold crc16
  induction data using List.reverseRecOn with
  | nil => norm_num
  | append_singleton l b _ => rw [List.foldl_append]; exact crcByteStep_lt _ _

/-! ### CRC-16 is F2-linear in its input

These lemmas establish that flipping bits of one input byte always
changes the CRC: the bit-step is linear over XOR, the per-byte delta
injected by a flipped byte is nonzero, and the nonzero delta is
preserved by further processing. -/

theorem xor_mod_two_pow (a b n : Nat) :
    (a ^^^ b) % 2 ^ n = a % 2 ^ n ^^^ b % 2 ^ n := by
  apply Nat.eq_of_testBit_eq
  intro i
  by_cases h : i < n <;>
    simp [Nat.testBit_mod_two_pow, Nat.testBit_xor, h]

theorem shiftLeft_xor_distrib (a b k : Nat) :
    (a ^^^ b) <<< k = a <<< k ^^^ b <<< k := by
  apply Nat.eq_of_testBit_eq
  intro i
  by_cases h : k ≤ i <;>
    simp [Nat.testBit_shiftLeft, Nat.testBit_xor, h]

theorem crcStep_eq (c : Nat) :
    crcStep c = ((c <<< 1) ^^^ (if c.testBit 15 then 0x1021 else 0)) % 2 ^ 16 := by
  unfold crcStep
  split <;> simp

theorem xor_xor_swap (x y a b : Nat) :
    (x ^^^ a) ^^^ (y ^^^ b) = (x ^^^ y) ^^^ (a ^^^ b) := by
  apply Nat.eq_of_testBit_eq
  intro i
  simp only [Nat.testBit_xor]
  cases x.testBit i <;> cases y.testBit i <;> cases a.testBit i <;>
    cases b.testBit i <;> rfl

theorem crcStep_xor (c d : Nat) : crcStep (c ^^^ d) = crcStep c ^^^ crcStep d := by
  rw [crcStep_eq, crcStep_eq, crcStep_eq, ← xor_mod_two_pow,
    shiftLeft_xor_distrib, xor_xor_swap]
  congr 1
  by_cases hc : c.testBit 15 <;> by_cases hd : d.testBit 15 <;>
    simp [hc, hd, Nat.testBit_xor]

theorem crcStep8_xor (c d : Nat) : crcStep8 (c ^^^ d) = crcStep8 c ^^^ crcStep8 d := by
  unfold crcStep8
  rw [crcStep_xor, crcStep_xor, crcStep_xor, crcStep_xor, crcStep_xor,
    crcStep_xor, crcStep_xor, crcStep_xor]

theorem crcByteStep_xor_left (c d b : Nat) :
    crcByteStep (c ^^^ d) b = crcByteStep c b ^^^ crcStep8 d := by
  unfold crcByteStep
  rw [Nat.xor_assoc, Nat.xor_comm d _, ← Nat.xor_assoc, crcStep8_xor]

/-- Iterated `crcStep8`. -/
def crcIter : Nat → Nat → Nat
  | 0, d => d
  | n + 1, d => crcIter n (crcStep8 d)

theorem foldl_crc_xor (xs : List Nat) (c d : Nat) :
    List.foldl crcByteStep (c ^^^ d) xs =
      List.foldl crcByteStep c xs ^^^ crcIter xs.length d := by
  induction xs generalizing c d with
  | nil => rfl
  | cons x t ih =>
    simp only [List.foldl_cons, List.length_cons]
    rw [crcByteStep_xor_left, ih]
    rfl

theorem testBit_false_lt (c : Nat) (hc : c < 2 ^ 16) (h : c.testBit 15 = false) :
    c < 2 ^ 15 := by
  rw [Nat.testBit_to_div_mod] at h
  simp at h
  omega

theorem crcStep_ne_zero (c : Nat) (hc : c < 2 ^ 16) (h : c ≠ 0) : crcStep c ≠ 0 := by
  unfold crcStep
  split
  · rename_i ht
    intro habs
    have : (((c <<< 1) ^^^ 0x1021) % 2 ^ 16).testBit 0 = false := by
      rw [habs]; simp
    rw [Nat.testBit_mod_two_pow] at this
    simp [Nat.testBit_xor, Nat.testBit_shiftLeft] at this
    omega
  · rename_i ht
    have hlt : c < 2 ^ 15 := testBit_false_lt c hc (by simpa using ht)
    have : c <<< 1 = 2 * c := by omega
    rw [this, Nat.mod_eq_of_lt (by omega)]
    omega

theorem crcStep8_ne_zero (c : Nat) (hc : c < 2 ^ 16) (h : c ≠ 0) : crcStep8 c ≠ 0 := by
  unfold crcStep8
  exact crcStep_ne_zero _ (crcStep_lt _)
    (crcStep_ne_zero _ (crcStep_lt _)
      (crcStep_ne_zero _ (crcStep_lt _)
        (crcStep_ne_zero _ (crcStep_lt _)
          (crcStep_ne_zero _ (crcStep_lt _)
            (crcStep_ne_zero _ (crcStep_lt _)
              (crcStep_ne_zero _ (crcStep_lt _)
                (crcStep_ne_zero _ hc h)))))))

theorem crcIter_ne_zero (n d : Nat) (hd : d < 2 ^ 16) (h : d ≠ 0) :
    crcIter n d ≠ 0 := by
  induction n generalizing d with
  | zero => exact h
  | succ n ih => exact ih _ (crcStep_lt _) (crcStep8_ne_zero _ hd h)

theorem xor_ne_self (a e : Nat) (he : e ≠ 0) : a ^^^ e ≠ a := by
  intro h
  apply he
  have : a ^^^ (a ^^^ e) = a ^^^ a := by rw [h]
  rw [← Nat.xor_assoc, Nat.xor_self, Nat.zero_xor] at this
  exact this

theorem crcByteStep_xor_byte (c x m : Nat) (hx : x < 256) (hm : m < 256) :
    crcByteStep c (x ^^^ m) = crcByteStep c x ^^^ crcStep8 (m <<< 8) := by
  unfold crcByteStep
  have h1 : (x ^^^ m) % 256 = x ^^^ m :=
    Nat.mod_eq_of_lt (Nat.xor_lt_two_pow (n := 8) hx hm)
  have h2 : x % 256 = x := Nat.mod_eq_of_lt hx
  rw [h1, h2, shiftLeft_xor_distrib, ← Nat.xor_assoc, crcStep8_xor]

theorem foldl_crc_set_ne (L : List Nat) (c r m : Nat) (hr : r < L.length)
    (hb : ∀ x ∈ L, x < 256) (hm : m ≠ 0) (hm256 : m < 256) :
    List.foldl crcByteStep c (L.set r (L.getD r 0 ^^^ m)) ≠
      List.foldl crcByteStep c L := by
  induction L generalizing c r with
  | nil => simp at hr
  | cons x t ih =>
    cases r with
    | zero =>
      simp only [List.set, List.getD_cons_zero, List.foldl_cons]
      have hx : x < 256 := hb x (by simp)
      rw [crcByteStep_xor_byte c x m hx hm256, foldl_crc_xor]
      apply xor_ne_self
      apply crcIter_ne_zero
      · exact crcStep_lt _
      · apply crcStep8_ne_zero
        · have : m <<< 8 = m * 256 := by omega
          omega
        · have : m <<< 8 = m * 256 := by omega
          omega
    | succ r =>
      simp only [List.set, List.getD_cons_succ, List.foldl_cons]
      exact ih (crcByteStep c x) r (by simpa using hr)
        (fun y hy => hb y (by simp [hy])) 

/-- Changing one byte of the input (by XOR with a nonzero 8-bit mask)
always changes the CRC-16. -/
theorem crc16_set_ne (L : List Nat) (r m : Nat) (hr : r < L.length)
    (hb : ∀ x ∈ L, x < 256) (hm : m ≠ 0) (hm256 : m < 256) :
    crc16 (L.set r (L.getD r 0 ^^^ m)) ≠ crc16 L :=
  foldl_crc_set_ne L 0xFFFF r m hr hb hm hm256

/-! ## Packet types and headers (`src/server/src/protocol/packet.rs`) -/

/-- `PROTOCOL_ID: u16 = 0x4C4C`. -/
def PROTOCOL_ID : Nat := 0x4C4C

/-- `HEADER_SIZE: usize = 24`. -/
def HEADER_SIZE : Nat := 24

/-- `PacketType` (`#[repr(u8)]`). -/
inductive PacketType where
  | Data
  | Ack
  | HandshakeInit
  | HandshakeResponse
  | KeepAlive
  | Disconnect
deriving DecidableEq, Repr

/-- The `u8` discriminant of a `PacketType` (`pt as u8`). -/
def PacketType.toU8 : PacketType → Nat
  | .Data => 0x01
  | .Ack => 0x02
  | .HandshakeInit => 0x03
  | .HandshakeResponse => 0x04
  | .KeepAlive => 0x05
  | .Disconnect => 0x06

/-- `PacketType::from_u8`. -/
def PacketType.fromU8 (value : Nat) : Except LLError PacketType :=
  match value with
  | 0x01 => .ok .Data
  | 0x02 => .ok .Ack
  | 0x03 => .ok .HandshakeInit
  | 0x04 => .ok .HandshakeResponse
  | 0x05 => .ok .KeepAlive
  | 0x06 => .ok .Disconnect
  | _ => .error (.InvalidPacketType value)

theorem fromU8_toU8 (pt : PacketType) : PacketType.fromU8 pt.toU8 = .ok pt := by
  cases pt <;> rfl

theorem toU8_fromU8 (v : Nat) (pt : PacketType)
    (h : PacketType.fromU8 v = .ok pt) : pt.toU8 = v := by
  unfold PacketType.fromU8 at h
  split at h <;> simp_all <;> subst h <;> rfl

theorem toU8_lt (pt : PacketType) : pt.toU8 < 256 := by
  cases pt <;> simp [PacketType.toU8]

/-- `PacketHeader`.  Field widths: `protocol_id: u16`, `stream_id: u16`,
`sequence_number: u64`, `timestamp: u64`, `flags: u8`, `checksum: u16`. -/
structure PacketHeader where
  protocol_id : Nat
  packet_type : PacketType
  stream_id : Nat
  sequence_number : Nat
  timestamp : Nat
  flags : Nat
  checksum : Nat
deriving DecidableEq, Repr

/-- `Packet` = header + payload bytes. -/
structure Packet where
  header : PacketHeader
  payload : List Nat
deriving DecidableEq, Repr

/-- The byte sequence hashed by `PacketHeader::calculate_checksum`:
all header fields except the checksum, in wire order, then the payload. -/
def crcInput (h : PacketHeader) (payload : List Nat) : List Nat :=
  beBytes 2 h.protocol_id ++ [h.packet_type.toU8] ++ beBytes 2 h.stream_id ++
    beBytes 8 h.sequence_number ++ beBytes 8 h.timestamp ++ [h.flags] ++ payload

/-- `PacketHeader::calculate_checksum`. -/
def calculateChecksum (h : PacketHeader) (payload : List Nat) : Nat :=
  crc16 (crcInput h payload)

/-- `PacketHeader::verify_checksum`. -/
def verifyChecksum (h : PacketHeader) (payload : List Nat) : Bool :=
  calculateChecksum h payload == h.checksum

/-- `PacketHeader::serialize` (24 bytes, big-endian). -/
def headerSerialize (h : PacketHeader) : List Nat :=
  beBytes 2 h.protocol_id ++ [h.packet_type.toU8] ++ beBytes 2 h.stream_id ++
    beBytes 8 h.sequence_number ++ beBytes 8 h.timestamp ++ [h.flags] ++
    beBytes 2 h.checksum

/-- `PacketHeader::new` (timestamp passed explicitly; in the source it is
`current_timestamp()`). -/
def headerNew (packet_type : PacketType) (timestamp : Nat) : PacketHeader :=
  { protocol_id := PROTOCOL_ID
    packet_type := packet_type
    stream_id := 0
    sequence_number := 0
    timestamp := timestamp
    flags := 0
    checksum := 0 }

/-- `Packet::new`. -/
def packetNew (packet_type : PacketType) (timestamp : Nat) (payload : List Nat) :
    Packet :=
  let header := headerNew packet_type timestamp
  { header := { header with checksum := calculateChecksum header payload }
    payload := payload }

/-- `Packet::new_with_metadata`. -/
def packetNewWithMetadata (packet_type : PacketType) (stream_id sequence_number : Nat)
    (timestamp : Nat) (payload : List Nat) : Packet :=
  let header := { headerNew packet_type timestamp with
    stream_id := stream_id, sequence_number := sequence_number }
  { header := { header with checksum := calculateChecksum header payload }
    payload := payload }

/-- `Packet::serialize`: header bytes followed by the payload. -/
def packetSerialize (p : Packet) : List Nat :=
  headerSerialize p.header ++ p.payload

/-- `PacketHeader::deserialize`: read the 24 header bytes (big-endian),
validating the protocol id and packet type. -/
def headerDeserialize (bs : List Nat) : Except LLError PacketHeader :=
  if bs.length < HEADER_SIZE then
    .error (.InsufficientData HEADER_SIZE bs.length)
  else
    let protocol_id := beVal (bs.take 2)
    if protocol_id ≠ PROTOCOL_ID then
      .error (.InvalidProtocolId protocol_id)
    else
      match PacketType.fromU8 (bs.getD 2 0) with
      | .error e => .error e
      | .ok packet_type =>
        .ok { protocol_id := protocol_id
              packet_type := packet_type
              stream_id := beVal ((bs.drop 3).take 2)
              sequence_number := beVal ((bs.drop 5).take 8)
              timestamp := beVal ((bs.drop 13).take 8)
              flags := bs.getD 21 0
              checksum := beVal ((bs.drop 22).take 2) }

/-- `Packet::deserialize`: parse the header, take the rest as payload,
verify the checksum. -/
def packetDeserialize (bs : List Nat) : Except LLError Packet :=
  match headerDeserialize bs with
  | .error e => .error e
  | .ok header =>
    let payload := bs.drop HEADER_SIZE
    if verifyChecksum header payload then
      .ok { header := header, payload := payload }
    else
      .error (.ChecksumMismatch header.checksum (calculateChecksum header payload))

theorem length_headerSerialize (h : PacketHeader) :
    (headerSerialize h).length = HEADER_SIZE := by
  simp [headerSerialize, length_beBytes, HEADER_SIZE]

/-- The checksum field does not feed `calculate_checksum`. -/
theorem calculateChecksum_set_checksum (h : PacketHeader) (c : Nat)
    (payload : List Nat) :
    calculateChecksum { h with checksum := c } payload =
      calculateChecksum h payload := rfl

theorem headerDeserialize_serialize (h : PacketHeader) (payload : List Nat)
    (hpid : h.protocol_id = PROTOCOL_ID) (hsid : h.stream_id < 2 ^ 16)
    (hseq : h.sequence_number < 2 ^ 64) (hts : h.timestamp < 2 ^ 64)
    (hfl : h.flags < 256) (hck : h.checksum < 2 ^ 16) :
    headerDeserialize (headerSerialize h ++ payload) = .ok h := by
  obtain ⟨pid, pt, sid, seq, ts, fl, ck⟩ := h
  simp only at hpid hsid hseq hts hfl hck
  subst hpid
  simp only [headerSerialize, beBytes, headerDeserialize, beVal, HEADER_SIZE,
    PROTOCOL_ID]
  norm_num [List.getD, fromU8_toU8]
  rw [if_neg (by omega)]
  simp only [Except.ok.injEq, PacketHeader.mk.injEq]
  refine ⟨trivial, trivial, by omega, by omega, by omega, trivial, by omega⟩

theorem packetDeserialize_serialize (p : Packet)
    (hpid : p.header.protocol_id = PROTOCOL_ID)
    (hsid : p.header.stream_id < 2 ^ 16)
    (hseq : p.header.sequence_number < 2 ^ 64)
    (hts : p.header.timestamp < 2 ^ 64) (hfl : p.header.flags < 256)
    (hck : p.header.checksum = calculateChecksum p.header p.payload) :
    packetDeserialize (packetSerialize p) = .ok p := by
  have hcklt : p.header.checksum < 2 ^ 16 := by rw [hck]; exact crc16_lt _
  have hdrop : (headerSerialize p.header ++ p.payload).drop HEADER_SIZE =
      p.payload := by
    rw [← length_headerSerialize p.header]
    exact List.drop_left _ _
  have hverify : verifyChecksum p.header p.payload = true := by
    unfold verifyChecksum
    rw [hck]
    exact beq_self_eq_true _
  unfold packetDeserialize packetSerialize
  rw [headerDeserialize_serialize p.header p.payload hpid hsid hseq hts hfl hcklt]
  simp [hdrop, hverify]

/-- C2 — Wire codec round trip: a packet built by `Packet::new_with_metadata`
(checksum computed over the header fields in wire order plus the payload)
deserializes from its own serialization to a packet with identical header
fields and byte-identical payload. -/
theorem wireCodecRoundTrip (pt : PacketType) (sid seq ts : Nat)
    (payload : List Nat) (hsid : sid < 2 ^ 16) (hseq : seq < 2 ^ 64)
    (hts : ts < 2 ^ 64) :
    packetDeserialize (packetSerialize (packetNewWithMetadata pt sid seq ts payload)) =
      .ok (packetNewWithMetadata pt sid seq ts payload) := by
  apply packetDeserialize_serialize
  · rfl
  · exact hsid
  · exact hseq
  · exact hts
  · show (0 : Nat) < 256
    norm_num
  · simp only [packetNewWithMetadata]
    exact (calculateChecksum_set_checksum _ _ _).symm

/-- The ASCII bytes of "Hello, LostLove!" (the spec's scenario payload). -/
def helloPayload : List Nat :=
  [72, 101, 108, 108, 111, 44, 32, 76, 111, 115, 116, 76, 111, 118, 101, 33]

/-- C2 witness: the spec's concrete scenario — a `Data` packet with
`stream_id = 7`, `seq = 42` and payload "Hello, LostLove!". -/
theorem wireCodecRoundTrip_witness :
    (7 : Nat) < 2 ^ 16 ∧ (42 : Nat) < 2 ^ 64 ∧ (1700000000000 : Nat) < 2 ^ 64 ∧
    packetDeserialize (packetSerialize
        (packetNewWithMetadata .Data 7 42 1700000000000 helloPayload)) =
      .ok (packetNewWithMetadata .Data 7 42 1700000000000 helloPayload) :=
  ⟨by norm_num, by norm_num, by norm_num,
    wireCodecRoundTrip .Data 7 42 1700000000000 helloPayload (by norm_num)
      (by norm_num) (by norm_num)⟩

/-! ### Single-bit corruption detection (C3)

Characterize a successful `Packet::deserialize` in terms of the raw
bytes, then show any single-bit flip breaks one of the three checks. -/

theorem take_one_drop (l : List Nat) (k : Nat) (h : k < l.length) :
    (l.drop k).take 1 = [l.getD k 0] := by
  have h0 : (l.drop k)[0]? = l[k]? := by
    rw [List.getElem?_drop]
    norm_num
  match hd : l.drop k with
  | [] =>
    have := List.length_drop k l
    rw [hd] at this
    simp at this
    omega
  | x :: t =>
    simp only [List.take_succ_cons, List.take_zero]
    rw [hd] at h0
    simp at h0
    rw [List.getD_eq_getElem?_getD, ← h0]
    rfl

/-- The first 22 serialized bytes split at the header-field boundaries. -/
theorem take22_decomp (bs : List Nat) (h : 24 ≤ bs.length) :
    bs.take 22 = bs.take 2 ++ [bs.getD 2 0] ++ (bs.drop 3).take 2 ++
      (bs.drop 5).take 8 ++ (bs.drop 13).take 8 ++ [bs.getD 21 0] := by
  have e2 : bs.take 22 = bs.take 2 ++ (bs.drop 2).take 20 := List.take_add bs 2 20
  have e3 : (bs.drop 2).take 20 = (bs.drop 2).take 1 ++ (bs.drop 3).take 19 := by
    rw [List.take_add (bs.drop 2) 1 19, List.drop_drop]
  have e4 : (bs.drop 3).take 19 = (bs.drop 3).take 2 ++ (bs.drop 5).take 17 := by
    rw [List.take_add (bs.drop 3) 2 17, List.drop_drop]
  have e5 : (bs.drop 5).take 17 = (bs.drop 5).take 8 ++ (bs.drop 13).take 9 := by
    rw [List.take_add (bs.drop 5) 8 9, List.drop_drop]
  have e6 : (bs.drop 13).take 9 = (bs.drop 13).take 8 ++ (bs.drop 21).take 1 := by
    rw [List.take_add (bs.drop 13) 8 1, List.drop_drop]
  rw [e2, e3, e4, e5, e6, take_one_drop bs 2 (by omega), take_one_drop bs 21 (by omega)]
  simp [List.append_assoc]

/-- Components of a successful `PacketHeader::deserialize`. -/
theorem headerDeserialize_ok_facts (bs : List Nat) (h : PacketHeader)
    (hok : headerDeserialize bs = .ok h) :
    24 ≤ bs.length ∧
    h.protocol_id = beVal (bs.take 2) ∧
    beVal (bs.take 2) = PROTOCOL_ID ∧
    PacketType.fromU8 (bs.getD 2 0) = .ok h.packet_type ∧
    h.stream_id = beVal ((bs.drop 3).take 2) ∧
    h.sequence_number = beVal ((bs.drop 5).take 8) ∧
    h.timestamp = beVal ((bs.drop 13).take 8) ∧
    h.flags = bs.getD 21 0 ∧
    h.checksum = beVal ((bs.drop 22).take 2) := by
  unfold headerDeserialize at hok
  simp only [HEADER_SIZE] at hok
  split at hok
  · exact absurd hok (by simp)
  next hlen =>
  split at hok
  · exact absurd hok (by simp)
  next hpid =>
  rcases hpt : PacketType.fromU8 (bs.getD 2 0) with e | pt <;> rw [hpt] at hok
  · exact absurd hok (by simp)
  · simp only [Except.ok.injEq] at hok
    subst hok
    exact ⟨by omega, rfl, by simpa using hpid, rfl, rfl, rfl, rfl, rfl, rfl⟩

/-- Components of a successful `Packet::deserialize`. -/
theorem packetDeserialize_ok_parts (bs : List Nat) (p : Packet)
    (hok : packetDeserialize bs = .ok p) :
    headerDeserialize bs = .ok p.header ∧ p.payload = bs.drop 24 ∧
    verifyChecksum p.header (bs.drop 24) = true := by
  unfold packetDeserialize at hok
  rcases hhd : headerDeserialize bs with e | hdr <;> rw [hhd] at hok
  · exact absurd hok (by simp)
  · simp only [HEADER_SIZE] at hok
    split at hok
    next hv =>
      simp only [Except.ok.injEq] at hok
      subst hok
      exact ⟨rfl, rfl, hv⟩
    next hv =>
      exact absurd hok (by simp)

/-- `beBytes_beVal` with the length given as an equation. -/
theorem beBytes_beVal_len (w : Nat) (l : List Nat) (hw : l.length = w)
    (hl : ∀ b ∈ l, b < 256) : beBytes w (beVal l) = l := by
  rw [← hw]
  exact beBytes_beVal l hl

/-- What a successful `Packet::deserialize` tells us about the raw bytes:
the protocol id and packet type parse, and the checksum bytes store
exactly the CRC of the other 22 header bytes plus the payload. -/
theorem deserialize_ok_facts (bs : List Nat) (p : Packet)
    (hb : ∀ x ∈ bs, x < 256) (hok : packetDeserialize bs = .ok p) :
    24 ≤ bs.length ∧
    beVal (bs.take 2) = PROTOCOL_ID ∧
    PacketType.fromU8 (bs.getD 2 0) = .ok p.header.packet_type ∧
    crcInput p.header p.payload = bs.take 22 ++ bs.drop 24 ∧
    p.header.checksum = beVal ((bs.drop 22).take 2) ∧
    crc16 (bs.take 22 ++ bs.drop 24) = beVal ((bs.drop 22).take 2) := by
  obtain ⟨hhd, hpay, hv⟩ := packetDeserialize_ok_parts bs p hok
  obtain ⟨hlen, hpid0, hpid, hpt, hsid, hseq, hts, hfl, hck⟩ :=
    headerDeserialize_ok_facts bs p.header hhd
  have hcrcinput : crcInput p.header p.payload = bs.take 22 ++ bs.drop 24 := by
    unfold crcInput
    have ht2 : (bs.take 2).length = 2 := by
      rw [List.length_take]; omega
    have hd3 : ((bs.drop 3).take 2).length = 2 := by
      rw [List.length_take, List.length_drop]; omega
    have hd5 : ((bs.drop 5).take 8).length = 8 := by
      rw [List.length_take, List.length_drop]; omega
    have hd13 : ((bs.drop 13).take 8).length = 8 := by
      rw [List.length_take, List.length_drop]; omega
    have hm2 : ∀ x ∈ bs.take 2, x < 256 := fun x hx => hb x (List.mem_of_mem_take hx)
    have hm3 : ∀ x ∈ (bs.drop 3).take 2, x < 256 := fun x hx =>
      hb x (List.mem_of_mem_drop (List.mem_of_mem_take hx))
    have hm5 : ∀ x ∈ (bs.drop 5).take 8, x < 256 := fun x hx =>
      hb x (List.mem_of_mem_drop (List.mem_of_mem_take hx))
    have hm13 : ∀ x ∈ (bs.drop 13).take 8, x < 256 := fun x hx =>
      hb x (List.mem_of_mem_drop (List.mem_of_mem_take hx))
    have r1 : beBytes 2 (beVal (bs.take 2)) = bs.take 2 :=
      beBytes_beVal_len 2 _ ht2 hm2
    have r2 : beBytes 2 (beVal ((bs.drop 3).take 2)) = (bs.drop 3).take 2 :=
      beBytes_beVal_len 2 _ hd3 hm3
    have r3 : beBytes 8 (beVal ((bs.drop 5).take 8)) = (bs.drop 5).take 8 :=
      beBytes_beVal_len 8 _ hd5 hm5
    have r4 : beBytes 8 (beVal ((bs.drop 13).take 8)) = (bs.drop 13).take 8 :=
      beBytes_beVal_len 8 _ hd13 hm13
    rw [hpid0, hsid, hseq, hts, hfl, hpay, r1, r2, r3, r4,
      toU8_fromU8 _ _ hpt, take22_decomp bs hlen]
  refine ⟨hlen, hpid, hpt, hcrcinput, hck, ?_⟩
  have hv' : calculateChecksum p.header (bs.drop 24) = p.header.checksum :=
    of_decide_eq_true (by simpa [verifyChecksum] using hv)
  calc crc16 (bs.take 22 ++ bs.drop 24)
      = calculateChecksum p.header p.payload := by
        unfold calculateChecksum
        rw [hcrcinput]
    _ = p.header.checksum := by rw [hpay]; exact hv'
    _ = beVal ((bs.drop 22).take 2) := hck


/-! ### List surgery lemmas for the bit-flip analysis -/

theorem getD_drop (l : List Nat) (k n : Nat) :
    (l.drop k).getD n 0 = l.getD (k + n) 0 := by
  rw [List.getD_eq_getElem?_getD, List.getD_eq_getElem?_getD, List.getElem?_drop]

theorem getD_take_of_lt (l : List Nat) (k i : Nat) (h : i < k) :
    (l.take k).getD i 0 = l.getD i 0 := by
  rw [List.getD_eq_getElem?_getD, List.getD_eq_getElem?_getD,
    List.getElem?_take_of_lt h]

theorem getD_append_left (A B : List Nat) (i : Nat) (h : i < A.length) :
    (A ++ B).getD i 0 = A.getD i 0 := by
  rw [List.getD_eq_getElem?_getD, List.getD_eq_getElem?_getD,
    List.getElem?_append_left h]

theorem getD_append_right (A B : List Nat) (n : Nat) :
    (A ++ B).getD (A.length + n) 0 = B.getD n 0 := by
  rw [List.getD_eq_getElem?_getD, List.getD_eq_getElem?_getD,
    List.getElem?_append_right (by omega)]
  have h : A.length + n - A.length = n := by omega
  rw [h]

theorem getD_set_self (l : List Nat) (i v : Nat) (h : i < l.length) :
    (l.set i v).getD i 0 = v := by
  rw [List.getD_eq_getElem?_getD, List.getElem?_set_self h]
  rfl

theorem getD_mem (l : List Nat) (i : Nat) (h : i < l.length) : l.getD i 0 ∈ l := by
  rw [List.getD_eq_getElem?_getD, List.getElem?_eq_getElem h]
  exact List.getElem_mem h

theorem set_ne_of_getD (l : List Nat) (i v : Nat) (h : i < l.length)
    (hv : v ≠ l.getD i 0) : l.set i v ≠ l := by
  intro heq
  apply hv
  rw [← getD_set_self l i v h, heq]

theorem drop_set_of_le (l : List Nat) (i v k : Nat) (h : k ≤ i) :
    (l.set i v).drop k = (l.drop k).set (i - k) v := by
  apply List.ext_getElem?
  intro n
  rw [List.getElem?_drop]
  by_cases hn : k + n = i
  · subst hn
    have hkn : k + n - k = n := by omega
    rw [hkn]
    by_cases hl : k + n < l.length
    · rw [List.getElem?_set_self hl,
        List.getElem?_set_self (by rw [List.length_drop]; omega)]
    · rw [List.set_eq_of_length_le (by omega),
        List.set_eq_of_length_le (by rw [List.length_drop]; omega),
        List.getElem?_drop]
  · rw [List.getElem?_set_ne (by omega), List.getElem?_set_ne (by omega),
      List.getElem?_drop]

theorem take_set_of_le (l : List Nat) (i v k : Nat) (h : k ≤ i) :
    (l.set i v).take k = l.take k := by
  apply List.ext_getElem?
  intro n
  by_cases hn : n < k
  · rw [List.getElem?_take_of_lt hn, List.getElem?_take_of_lt hn,
      List.getElem?_set_ne (by omega)]
  · rw [List.getElem?_eq_none, List.getElem?_eq_none]
    · rw [List.length_take]; omega
    · rw [List.length_take, List.length_set]; omega

theorem take_set_of_lt (l : List Nat) (i v k : Nat) (h : i < k) :
    (l.set i v).take k = (l.take k).set i v := by
  apply List.ext_getElem?
  intro n
  by_cases hn : n < k
  · by_cases hi : n = i
    · subst hi
      by_cases hl : n < l.length
      · rw [List.getElem?_take_of_lt hn, List.getElem?_set_self hl,
          List.getElem?_set_self (by rw [List.length_take]; omega)]
      · rw [List.set_eq_of_length_le (by omega),
          List.set_eq_of_length_le (by rw [List.length_take]; omega)]
    · rw [List.getElem?_take_of_lt hn, List.getElem?_set_ne (by omega),
        List.getElem?_set_ne (by omega), List.getElem?_take_of_lt hn]
  · rw [List.getElem?_eq_none, List.getElem?_eq_none]
    · rw [List.length_set, List.length_take]; omega
    · rw [List.length_take, List.length_set]; omega

theorem set_bytes_lt (l : List Nat) (i v : Nat) (hb : ∀ x ∈ l, x < 256)
    (hv : v < 256) : ∀ x ∈ l.set i v, x < 256 := by
  induction l generalizing i with
  | nil => simp
  | cons y t ih =>
    cases i with
    | zero =>
      intro x hx
      simp only [List.set] at hx
      rcases List.mem_cons.mp hx with h | h
      · omega
      · exact hb x (List.mem_cons_of_mem _ h)
    | succ i =>
      intro x hx
      simp only [List.set] at hx
      rcases List.mem_cons.mp hx with h | h
      · exact hb x (h ▸ List.mem_cons_self _ _)
      · exact ih i (fun z hz => hb z (List.mem_cons_of_mem _ hz)) x h

theorem beVal_inj (l1 l2 : List Nat) (hlen : l1.length = l2.length)
    (h1 : ∀ b ∈ l1, b < 256) (h2 : ∀ b ∈ l2, b < 256)
    (h : beVal l1 = beVal l2) : l1 = l2 := by
  have e1 := beBytes_beVal l1 h1
  have e2 := beBytes_beVal l2 h2
  rw [← e1, ← e2, hlen, h]

/-! ### Deserialize error classification and the bit-flip theorem -/

/-- Flip bit `j` of byte `i` of an encoded byte sequence. -/
def flipBit (bs : List Nat) (i j : Nat) : List Nat :=
  bs.set i (bs.getD i 0 ^^^ 1 <<< j)

/-- The three framing errors `Packet::deserialize` can report on a
complete (≥ 24 byte) buffer. -/
def isFramingError : Except LLError Packet → Bool
  | .error (.InvalidProtocolId _) => true
  | .error (.InvalidPacketType _) => true
  | .error (.ChecksumMismatch _ _) => true
  | _ => false

theorem fromU8_error (v : Nat) (e : LLError)
    (h : PacketType.fromU8 v = .error e) : e = .InvalidPacketType v := by
  unfold PacketType.fromU8 at h
  split at h <;> simp_all

/-- On a buffer of at least 24 bytes, `Packet::deserialize` either
succeeds or reports one of the three framing errors. -/
theorem deserialize_classify (bs : List Nat) (h24 : 24 ≤ bs.length) :
    (∃ p, packetDeserialize bs = .ok p) ∨
      isFramingError (packetDeserialize bs) = true := by
  unfold packetDeserialize
  rcases hhd : headerDeserialize bs with e | hdr
  · right
    unfold headerDeserialize at hhd
    simp only [HEADER_SIZE] at hhd
    split at hhd
    · omega
    split at hhd
    · simp only [Except.error.injEq] at hhd
      subst hhd
      rfl
    · rcases hpt : PacketType.fromU8 (bs.getD 2 0) with e2 | pt <;>
        rw [hpt] at hhd
      · simp only [Except.error.injEq] at hhd
        subst hhd
        rw [fromU8_error _ _ hpt]
        rfl
      · exact absurd hhd (by simp)
  · by_cases hv : verifyChecksum hdr (bs.drop HEADER_SIZE) = true
    · left
      exact ⟨{ header := hdr, payload := bs.drop HEADER_SIZE }, by simp [hv]⟩
    · right
      simp [hv, isFramingError]

/-- C3 — Single-bit corruption is always detected: for every buffer that
deserializes successfully (a validly encoded packet: correct protocol id,
known packet type, matching checksum) and every bit position, flipping
that bit makes `Packet::deserialize` fail with `InvalidProtocolId`,
`InvalidPacketType` or `ChecksumMismatch`. -/
theorem singleBitCorruptionDetected (bs : List Nat) (p : Packet)
    (hb : ∀ x ∈ bs, x < 256) (hok : packetDeserialize bs = .ok p)
    (i j : Nat) (hi : i < bs.length) (hj : j < 8) :
    isFramingError (packetDeserialize (flipBit bs i j)) = true := by
  obtain ⟨hlen, hpid, hpt, hcrcin, hckstore, hcrc⟩ :=
    deserialize_ok_facts bs p hb hok
  set m := 1 <<< j with hm_def
  have hm : m ≠ 0 := by
    have : m = 2 ^ j := by rw [hm_def]; omega
    rw [this]
    positivity
  have hm256 : m < 256 := by
    have : m = 2 ^ j := by rw [hm_def]; omega
    rw [this]
    calc 2 ^ j ≤ 2 ^ 7 := Nat.pow_le_pow_right (by norm_num) (by omega)
      _ < 256 := by norm_num
  set b := bs.getD i 0 with hb_def
  have hblt : b < 256 := hb b (getD_mem bs i hi)
  have hbm : b ^^^ m < 256 := Nat.xor_lt_two_pow (n := 8) hblt hm256
  have hbm_ne : b ^^^ m ≠ b := xor_ne_self b m hm
  set bs' := bs.set i (b ^^^ m) with hbsdef
  have hlen' : bs'.length = bs.length := by
    rw [hbsdef, List.length_set]
  have hb' : ∀ x ∈ bs', x < 256 := set_bytes_lt bs i (b ^^^ m) hb hbm
  rcases deserialize_classify bs' (by omega) with ⟨p', hok'⟩ | hframe
  · exfalso
    obtain ⟨hlen2, hpid', hpt', hcrcin', hckstore', hcrc'⟩ :=
      deserialize_ok_facts bs' p' hb' hok'
    by_cases hi22 : i < 22
    · -- flipped byte is inside the CRC-covered header prefix
      have e1 : bs'.take 22 = (bs.take 22).set i (b ^^^ m) :=
        take_set_of_lt bs i (b ^^^ m) 22 hi22
      have e2 : bs'.drop 24 = bs.drop 24 :=
        List.drop_set_of_lt _ _ (by omega)
      have e3 : bs'.drop 22 = bs.drop 22 :=
        List.drop_set_of_lt _ _ hi22
      have hL22 : (bs.take 22).length = 22 := by
        rw [List.length_take]; omega
      have eL : bs'.take 22 ++ bs'.drop 24 =
          (bs.take 22 ++ bs.drop 24).set i (b ^^^ m) := by
        rw [e1, e2, List.set_append_left _ _ (by omega)]
      have hgetD : (bs.take 22 ++ bs.drop 24).getD i 0 = b := by
        rw [getD_append_left _ _ _ (by omega), getD_take_of_lt _ _ _ hi22]
      have hne := crc16_set_ne (bs.take 22 ++ bs.drop 24) i m
        (by rw [List.length_append]; omega)
        (fun x hx => by
          rcases List.mem_append.mp hx with h | h
          · exact hb x (List.mem_of_mem_take h)
          · exact hb x (List.mem_of_mem_drop h))
        hm hm256
      rw [hgetD] at hne
      apply hne
      rw [← eL, hcrc', e3, hcrc]
    · by_cases hi24 : i < 24
      · -- flipped byte is one of the two stored checksum bytes
        have e1 : bs'.take 22 = bs.take 22 :=
          take_set_of_le bs i (b ^^^ m) 22 (by omega)
        have e2 : bs'.drop 24 = bs.drop 24 :=
          List.drop_set_of_lt _ _ (by omega)
        have e3 : bs'.drop 22 = (bs.drop 22).set (i - 22) (b ^^^ m) :=
          drop_set_of_le bs i (b ^^^ m) 22 (by omega)
        have e4 : (bs'.drop 22).take 2 =
            ((bs.drop 22).take 2).set (i - 22) (b ^^^ m) := by
          rw [e3, take_set_of_lt _ _ _ 2 (by omega)]
        have hXlen : ((bs.drop 22).take 2).length = 2 := by
          rw [List.length_take, List.length_drop]; omega
        have hXbytes : ∀ x ∈ (bs.drop 22).take 2, x < 256 := fun x hx =>
          hb x (List.mem_of_mem_drop (List.mem_of_mem_take hx))
        have hXgetD : ((bs.drop 22).take 2).getD (i - 22) 0 = b := by
          rw [getD_take_of_lt _ _ _ (by omega), getD_drop]
          have h22 : 22 + (i - 22) = i := by omega
          rw [h22]
        have hvaleq : beVal ((bs'.drop 22).take 2) =
            beVal ((bs.drop 22).take 2) := by
          rw [← hcrc', ← hcrc, e1, e2]
        have hlisteq := beVal_inj _ _ (by rw [e4, List.length_set])
          (fun x hx => by
            rw [e4] at hx
            exact set_bytes_lt _ _ _ hXbytes hbm x hx)
          hXbytes hvaleq
        rw [e4] at hlisteq
        exact set_ne_of_getD _ _ _ (by omega) (by rw [hXgetD]; exact hbm_ne) hlisteq
      · -- flipped byte is inside the payload
        have e1 : bs'.take 22 = bs.take 22 :=
          take_set_of_le bs i (b ^^^ m) 22 (by omega)
        have e2 : bs'.drop 24 = (bs.drop 24).set (i - 24) (b ^^^ m) :=
          drop_set_of_le bs i (b ^^^ m) 24 (by omega)
        have e3 : bs'.drop 22 = (bs.drop 22).set (i - 22) (b ^^^ m) :=
          drop_set_of_le bs i (b ^^^ m) 22 (by omega)
        have e4 : (bs'.drop 22).take 2 = (bs.drop 22).take 2 := by
          rw [e3, take_set_of_le _ _ _ 2 (by omega)]
        have hL22 : (bs.take 22).length = 22 := by
          rw [List.length_take]; omega
        have eL : bs'.take 22 ++ bs'.drop 24 =
            (bs.take 22 ++ bs.drop 24).set (22 + (i - 24)) (b ^^^ m) := by
          rw [e1, e2, List.set_append_right _ _
            (show (List.take 22 bs).length ≤ 22 + (i - 24) by rw [hL22]; omega)]
          rw [hL22]
          have h1 : 22 + (i - 24) - 22 = i - 24 := by omega
          rw [h1]
        have hgetD : (bs.take 22 ++ bs.drop 24).getD (22 + (i - 24)) 0 = b := by
          have h2 : 22 + (i - 24) = (bs.take 22).length + (i - 24) := by
            rw [hL22]
          rw [h2, getD_append_right, getD_drop]
          have h3 : 24 + (i - 24) = i := by omega
          rw [h3]
        have hne := crc16_set_ne (bs.take 22 ++ bs.drop 24) (22 + (i - 24)) m
          (by rw [List.length_append, List.length_drop]; omega)
          (fun x hx => by
            rcases List.mem_append.mp hx with h | h
            · exact hb x (List.mem_of_mem_take h)
            · exact hb x (List.mem_of_mem_drop h))
          hm hm256
        rw [hgetD] at hne
        apply hne
        rw [← eL, hcrc', e4, hcrc]
  · exact hframe

theorem length_packetSerialize (p : Packet) :
    (packetSerialize p).length = 24 + p.payload.length := by
  simp [packetSerialize, length_headerSerialize, HEADER_SIZE]

theorem packetSerialize_bytes_lt (p : Packet) (hfl : p.header.flags < 256)
    (hpay : ∀ b ∈ p.payload, b < 256) : ∀ x ∈ packetSerialize p, x < 256 := by
  intro x hx
  simp only [packetSerialize, headerSerialize, List.append_assoc,
    List.mem_append, List.mem_singleton] at hx
  rcases hx with h | h | h | h | h | h | h | h
  · exact beBytes_lt 2 _ x h
  · subst h; exact toU8_lt _
  · exact beBytes_lt 2 _ x h
  · exact beBytes_lt 8 _ x h
  · exact beBytes_lt 8 _ x h
  · subst h; exact hfl
  · exact beBytes_lt 2 _ x h
  · exact hpay x h

/-- C3 witness: flipping bit 3 of byte 5 of a concrete valid encoding is
detected. -/
theorem singleBitCorruptionDetected_witness :
    isFramingError (packetDeserialize (flipBit (packetSerialize
      (packetNewWithMetadata .Data 1 2 3 [10, 20])) 5 3)) = true := by
  have hok : packetDeserialize (packetSerialize
      (packetNewWithMetadata .Data 1 2 3 [10, 20])) =
      .ok (packetNewWithMetadata .Data 1 2 3 [10, 20]) := by
    apply packetDeserialize_serialize
    · rfl
    · show (1 : Nat) < 2 ^ 16
      norm_num
    · show (2 : Nat) < 2 ^ 64
      norm_num
    · show (3 : Nat) < 2 ^ 64
      norm_num
    · show (0 : Nat) < 256
      norm_num
    · simp only [packetNewWithMetadata]
      exact (calculateChecksum_set_checksum _ _ _).symm
  apply singleBitCorruptionDetected _ _ ?_ hok 5 3 ?_ (by norm_num)
  · apply packetSerialize_bytes_lt
    · show (0 : Nat) < 256
      norm_num
    · intro b hb
      have hb' : b ∈ ([10, 20] : List Nat) := hb
      simp only [List.mem_cons, List.not_mem_nil, or_false] at hb'
      rcases hb' with h | h <;> omega
  · rw [length_packetSerialize]
    have hplen : (packetNewWithMetadata PacketType.Data 1 2 3
        [10, 20]).payload.length = 2 := rfl
    rw [hplen]
    norm_num

/-! ## AEAD primitives (`crypto/chacha.rs`, `crypto/aes.rs`)

The ChaCha20-Poly1305 and AES-256-GCM ciphers come from the external
`chacha20poly1305` and `aes_gcm` crates, not from this repository.
Modelled from the spec: §4.2 gives their contract — 32-byte key,
12-byte nonce, a 16-byte tag appended to a ciphertext body of the
plaintext's length, decryption failing unless the tag verifies — and
§4.3/§9 describe both as deterministic keystream-XOR constructions with
per-(key, nonce) streams.  The model realises exactly that contract
with an explicit (non-cryptographic) mixing function in place of the
crates' primitives. -/

/-- Modelled from the spec: deterministic 64-bit mixing fold standing in
for the external crates' compression / stream primitives. -/
def mix (data : List Nat) : Nat :=
  data.foldl
    (fun a b => ((a + b % 256 + 1) * 6364136223846793005 + 1442695040888963407) % 2 ^ 64)
    14695981039346656037

/-- Domain-separated byte `i` of the modelled keystream for `(key, nonce)`. -/
def keystreamByte (dom : Nat) (key nonce : List Nat) (i : Nat) : Nat :=
  mix (dom :: key ++ nonce ++ [i]) % 256

/-- Modelled 16-byte authentication tag over `(key, nonce, body)`. -/
def aeadTag (dom : Nat) (key nonce body : List Nat) : List Nat :=
  (List.range 16).map (fun i => mix (dom :: key ++ nonce ++ body ++ [i]) % 256)

/-- Keystream-XOR AEAD encryption: body = plaintext ⊕ keystream, then
the 16-byte tag is appended.  `|ciphertext| = |plaintext| + 16`. -/
def aeadEncrypt (dom : Nat) (key nonce pt : List Nat) : List Nat :=
  let body := (List.range pt.length).map (fun i => pt.getD i 0 ^^^ keystreamByte dom key nonce i)
  body ++ aeadTag dom key nonce body

/-- AEAD decryption: split off the trailing 16-byte tag, verify it,
then XOR the keystream back off.  `none` models the crate's
`aead::Error` (authentication failure). -/
def aeadDecrypt (dom : Nat) (key nonce ct : List Nat) : Option (List Nat) :=
  if ct.length < 16 then none
  else
    let body := ct.take (ct.length - 16)
    let tag := ct.drop (ct.length - 16)
    if tag = aeadTag dom key nonce body then
      some ((List.range body.length).map
        (fun i => body.getD i 0 ^^^ keystreamByte dom key nonce i))
    else none

/-- Domain byte of the modelled ChaCha20-Poly1305 stream. -/
def domChaCha : Nat := 1

/-- Domain byte of the modelled AES-256-GCM stream. -/
def domAes : Nat := 2

/-- `ChaChaEncryptor::encrypt` — wraps the AEAD; the crate-level
failure path is unreachable in the model. -/
def chachaEncrypt (key pt nonce : List Nat) : Except LLError (List Nat) :=
  .ok (aeadEncrypt domChaCha key nonce pt)

/-- `ChaChaEncryptor::decrypt` — note the source wraps the AEAD error in
`LostLoveError::Connection`, not `Crypto`. -/
def chachaDecrypt (key ct nonce : List Nat) : Except LLError (List Nat) :=
  match aeadDecrypt domChaCha key nonce ct with
  | some pt => .ok pt
  | none => .error (.Connection "ChaCha20 decryption failed")

/-- `AesEncryptor::encrypt`. -/
def aesEncrypt (key pt nonce : List Nat) : Except LLError (List Nat) :=
  .ok (aeadEncrypt domAes key nonce pt)

/-- `AesEncryptor::decrypt` — also wraps the AEAD error in
`LostLoveError::Connection`. -/
def aesDecrypt (key ct nonce : List Nat) : Except LLError (List Nat) :=
  match aeadDecrypt domAes key nonce ct with
  | some pt => .ok pt
  | none => .error (.Connection "AES-GCM decryption failed")

theorem length_aeadTag (dom : Nat) (key nonce body : List Nat) :
    (aeadTag dom key nonce body).length = 16 := by
  simp [aeadTag]

theorem length_aeadEncrypt (dom : Nat) (key nonce pt : List Nat) :
    (aeadEncrypt dom key nonce pt).length = pt.length + 16 := by
  simp [aeadEncrypt, length_aeadTag]

/-! ## HSE combiner (`src/server/src/crypto/hse.rs`) -/

/-- `HSEEncryptor::encrypt`: encrypt with both AEADs under the same
nonce, check the two ciphertexts have equal length, XOR them. -/
def hseEncrypt (chachaKey aesKey pt nonce : List Nat) : Except LLError (List Nat) := do
  let chachaEncrypted ← chachaEncrypt chachaKey pt nonce
  let aesEncrypted ← aesEncrypt aesKey pt nonce
  if chachaEncrypted.length ≠ aesEncrypted.length then
    .error (.Crypto "Ciphertext length mismatch in HSE")
  else
    .ok (List.zipWith (· ^^^ ·) chachaEncrypted aesEncrypted)

/-- `HSEEncryptor::try_decrypt_with_length`: encrypt a zero plaintext of
the candidate length with both AEADs, use the XOR structure to split the
combined ciphertext, decrypt both halves and require agreement. -/
def tryDecryptWithLength (chachaKey aesKey combined nonce : List Nat)
    (plaintextLen : Nat) : Except LLError (List Nat) := do
  let testPlaintext := List.replicate plaintextLen 0
  let chachaTest ← chachaEncrypt chachaKey testPlaintext nonce
  let aesTest ← aesEncrypt aesKey testPlaintext nonce
  if chachaTest.length ≠ combined.length ∨ aesTest.length ≠ combined.length then
    .error (.Crypto "Length mismatch")
  else
    let chachaCiphertext := List.zipWith (· ^^^ ·) combined aesTest
    match chachaDecrypt chachaKey chachaCiphertext nonce with
    | .ok plaintext1 =>
      let aesCiphertext := List.zipWith (· ^^^ ·) combined chachaTest
      match aesDecrypt aesKey aesCiphertext nonce with
      | .ok plaintext2 =>
        if plaintext1 = plaintext2 then .ok plaintext1
        else .error (.Crypto "Decryption failed")
      | .error _ => .error (.Crypto "Decryption failed")
    | .error _ => .error (.Crypto "Decryption failed")

/-- The candidate-length loop body of `HSEEncryptor::decrypt`: return
the first candidate that decrypts, else the search-exhausted error. -/
def hseTryLens (chachaKey aesKey combined nonce : List Nat) :
    List Nat → Except LLError (List Nat)
  | [] => .error (.Crypto "HSE decryption failed: could not find valid plaintext")
  | l :: ls =>
    match tryDecryptWithLength chachaKey aesKey combined nonce l with
    | .ok pt => .ok pt
    | .error _ => hseTryLens chachaKey aesKey combined nonce ls

/-- `HSEEncryptor::decrypt`: estimate the plaintext length as
`|ct| − 32` (requiring `|ct| > 32`), then try every candidate length in
`estimate − 10 ..= estimate + 10`. -/
def hseDecrypt (chachaKey aesKey ct nonce : List Nat) : Except LLError (List Nat) :=
  if ct.length > 32 then
    let estimatedPlaintextLen := ct.length - 32
    hseTryLens chachaKey aesKey ct nonce
      (List.range' (estimatedPlaintextLen - 10)
        (estimatedPlaintextLen + 10 + 1 - (estimatedPlaintextLen - 10)))
  else
    .error (.Crypto "HSE ciphertext too short")

/-- A candidate length whose AEAD ciphertext length cannot match the
combined ciphertext is rejected by the internal length check. -/
theorem tryDecryptWithLength_len_mismatch (chachaKey aesKey combined nonce : List Nat)
    (l : Nat) (h : l + 16 ≠ combined.length) :
    tryDecryptWithLength chachaKey aesKey combined nonce l =
      .error (.Crypto "Length mismatch") := by
  unfold tryDecryptWithLength
  simp only [chachaEncrypt, aesEncrypt, bind, Except.bind]
  rw [if_pos]
  exact Or.inl (by rw [length_aeadEncrypt, List.length_replicate]; omega)

theorem hseTryLens_all_fail (chachaKey aesKey combined nonce : List Nat)
    (ls : List Nat) (h : ∀ l ∈ ls, l + 16 ≠ combined.length) :
    hseTryLens chachaKey aesKey combined nonce ls =
      .error (.Crypto "HSE decryption failed: could not find valid plaintext") := by
  induction ls with
  | nil => rfl
  | cons l ls ih =>
    unfold hseTryLens
    rw [tryDecryptWithLength_len_mismatch _ _ _ _ l (h l (by simp))]
    exact ih (fun x hx => h x (by simp [hx]))

/-- `HSEEncryptor::decrypt` never succeeds, on any input: the only
candidate length that passes the internal length check is
`|ct| − 16` (each AEAD adds exactly 16 bytes), but the search window is
`|ct| − 42 ..= |ct| − 22`, which never contains it. -/
theorem hseDecrypt_never_ok (chachaKey aesKey ct nonce : List Nat) :
    ∃ msg, hseDecrypt chachaKey aesKey ct nonce = .error (.Crypto msg) := by
  unfold hseDecrypt
  by_cases h : ct.length > 32
  · rw [if_pos h]
    refine ⟨_, hseTryLens_all_fail _ _ _ _ _ ?_⟩
    intro l hl
    have := List.mem_range'_1.mp hl
    omega
  · rw [if_neg h]
    exact ⟨_, rfl⟩

/-! ## KDF (`src/server/src/crypto/kdf.rs`)

`derive_keys` calls `Hkdf::<Sha512>` from the external `hkdf`/`sha2`
crates.  Modelled from the spec: §4.4 — "HKDF-Extract-then-Expand with
SHA-512" (RFC 5869 per the glossary).  The extract/expand structure is
reproduced; SHA-512 itself is replaced by the deterministic `mix`-based
model (`sha512model`). -/

/-- Modelled from the spec: stand-in for the external crates' SHA-512,
producing a 64-byte digest deterministically. -/
def sha512model (msg : List Nat) : List Nat :=
  (List.range 64).map (fun i => mix (msg ++ [i]) % 256)

theorem length_sha512model (msg : List Nat) : (sha512model msg).length = 64 := by
  simp [sha512model]

/-- HMAC over the modelled hash (block size 128 as for SHA-512). -/
def hmacSha512 (key msg : List Nat) : List Nat :=
  let k0 :=
    if 128 < key.length then sha512model key ++ List.replicate 64 0
    else key ++ List.replicate (128 - key.length) 0
  let ipad := k0.map (fun b => b ^^^ 0x36)
  let opad := k0.map (fun b => b ^^^ 0x5c)
  sha512model (opad ++ sha512model (ipad ++ msg))

theorem length_hmacSha512 (key msg : List Nat) :
    (hmacSha512 key msg).length = 64 := length_sha512model _

/-- RFC 5869 expansion block `T(i)` (1-indexed; `T(0)` is empty). -/
def hkdfT (prk info : List Nat) : Nat → List Nat
  | 0 => []
  | i + 1 => hmacSha512 prk (hkdfT prk info i ++ info ++ [i + 1])

/-- Concatenation `T(1) ‖ … ‖ T(n)`. -/
def hkdfOkm (prk info : List Nat) (n : Nat) : List Nat :=
  ((List.range n).map (fun i => hkdfT prk info (i + 1))).flatten

theorem length_hkdfT_succ (prk info : List Nat) (i : Nat) :
    (hkdfT prk info (i + 1)).length = 64 := length_hmacSha512 _ _

theorem length_hkdfOkm (prk info : List Nat) (n : Nat) :
    (hkdfOkm prk info n).length = 64 * n := by
  unfold hkdfOkm
  rw [List.length_flatten]
  induction n with
  | zero => simp
  | succ k ih =>
    rw [List.range_succ]
    simp only [List.map_append, List.map_cons, List.map_nil, List.sum_append]
    rw [ih]
    simp [length_hkdfT_succ]
    ring

/-- HKDF-SHA512 (extract with `salt`, expand with `info` to `L` bytes). -/
def hkdfSha512 (ikm salt info : List Nat) (L : Nat) : List Nat :=
  (hkdfOkm (hmacSha512 salt ikm) info ((L + 63) / 64)).take L

theorem length_hkdfSha512 (ikm salt info : List Nat) (L : Nat) :
    (hkdfSha512 ikm salt info L).length = L := by
  unfold hkdfSha512
  rw [List.length_take, length_hkdfOkm]
  omega

/-- `derive_keys` (kdf.rs): HKDF with the crate's output-length bound;
an over-long request is the crate's `InvalidLength`, mapped by the
source to `Connection("HKDF key derivation failed")`. -/
def deriveKeys (secret salt info : List Nat) (outputLength : Nat) :
    Except LLError (List Nat) :=
  if 255 * 64 < outputLength then
    .error (.Connection "HKDF key derivation failed")
  else
    .ok (hkdfSha512 secret salt info outputLength)

/-- `SessionKeys` — `chacha_key: [u8; 32]`, `aes_key: [u8; 32]`,
`master_secret: [u8; 64]`, as byte lists. -/
structure SessionKeys where
  chacha_key : List Nat
  aes_key : List Nat
  master_secret : List Nat
deriving DecidableEq, Repr

/-- The `info` byte string "LLP-v1-master-secret". -/
def masterInfo : List Nat := "LLP-v1-master-secret".toUTF8.toList.map (fun b => b.toNat)

/-- The `info` byte string "LLP-chacha20-key". -/
def chachaInfo : List Nat := "LLP-chacha20-key".toUTF8.toList.map (fun b => b.toNat)

/-- The `info` byte string "LLP-aes-key". -/
def aesInfo : List Nat := "LLP-aes-key".toUTF8.toList.map (fun b => b.toNat)

/-- `derive_session_keys` (kdf.rs): salt = client_random ‖ server_random,
master = derive(secret, salt, "LLP-v1-master-secret", 64), then the
ChaCha and AES keys from the master with empty salt; the `try_into`
length conversions are the three trailing checks. -/
def deriveSessionKeys (sharedSecret clientRandom serverRandom : List Nat) :
    Except LLError SessionKeys := do
  let salt := clientRandom ++ serverRandom
  let masterSecret ← deriveKeys sharedSecret salt masterInfo 64
  let chachaKey ← deriveKeys masterSecret [] chachaInfo 32
  let aesKey ← deriveKeys masterSecret [] aesInfo 32
  if chachaKey.length = 32 then
    if aesKey.length = 32 then
      if masterSecret.length = 64 then
        .ok { chacha_key := chachaKey, aes_key := aesKey, master_secret := masterSecret }
      else .error (.Connection "Invalid master secret length")
    else .error (.Connection "Invalid key length")
  else .error (.Connection "Invalid key length")

/-! ## KeyManager (`src/server/src/crypto/keys.rs`)

Wall-clock time (`Instant`, `elapsed`) is modelled by passing the
elapsed seconds since the last rotation explicitly; `rotate_keys`
resets `last_rotation`, so each call's `elapsedSecs` is measured from
the previous rotation. -/

/-- `KEY_ROTATION_INTERVAL` in seconds (30 minutes). -/
def KEY_ROTATION_INTERVAL_SECS : Nat := 30 * 60

structure KeyManager where
  current_keys : SessionKeys
  previous_keys : Option SessionKeys
  shared_secret : List Nat
  client_random : List Nat
  server_random : List Nat
  auto_rotation : Bool
deriving DecidableEq, Repr

/-- `KeyManager::new`. -/
def keyManagerNew (sharedSecret clientRandom serverRandom : List Nat)
    (autoRotation : Bool) : Except LLError KeyManager := do
  let keys ← deriveSessionKeys sharedSecret clientRandom serverRandom
  .ok { current_keys := keys
        previous_keys := none
        shared_secret := sharedSecret
        client_random := clientRandom
        server_random := serverRandom
        auto_rotation := autoRotation }

/-- `KeyManager::get_rotation_count`: elapsed seconds since the last
rotation divided by the interval, plus one. -/
def getRotationCount (elapsedSecs : Nat) : Nat :=
  elapsedSecs / KEY_ROTATION_INTERVAL_SECS + 1

/-- The `info` byte string "LLP-v1-rotation-<n>". -/
def rotationInfo (n : Nat) : List Nat :=
  ("LLP-v1-rotation-".toUTF8.toList.map (fun b => b.toNat)) ++
    ((toString n).toUTF8.toList.map (fun b => b.toNat))

/-- `KeyManager::rotate_keys`: derive a fresh generation keyed by the
rotation index, move current → previous, install the new generation. -/
def rotateKeys (km : KeyManager) (elapsedSecs : Nat) : Except LLError KeyManager := do
  let rotationCount := getRotationCount elapsedSecs
  let info := rotationInfo rotationCount
  let newKeys ← deriveKeys km.shared_secret [] info 64
  let chachaKey ← deriveKeys newKeys [] chachaInfo 32
  let aesKey ← deriveKeys newKeys [] aesInfo 32
  if chachaKey.length = 32 then
    if aesKey.length = 32 then
      if newKeys.length = 64 then
        .ok { km with
              current_keys :=
                { chacha_key := chachaKey, aes_key := aesKey, master_secret := newKeys }
              previous_keys := some km.current_keys }
      else .error (.Connection "Invalid master secret length")
    else .error (.Connection "Invalid key length")
  else .error (.Connection "Invalid key length")

/-- `KeyManager::decrypt_with_fallback`: try the current HSE, then the
previous generation, else `Crypto`. -/
def decryptWithFallback (km : KeyManager) (ct nonce : List Nat) :
    Except LLError (List Nat) :=
  match hseDecrypt km.current_keys.chacha_key km.current_keys.aes_key ct nonce with
  | .ok pt => .ok pt
  | .error _ =>
    match km.previous_keys with
    | some prev =>
      match hseDecrypt prev.chacha_key prev.aes_key ct nonce with
      | .ok pt => .ok pt
      | .error _ =>
        .error (.Crypto "Decryption failed with both current and previous keys")
    | none => .error (.Crypto "Decryption failed with both current and previous keys")

/-- The session keys derived for rotation generation `n`. -/
def rotationGeneration (secret : List Nat) (n : Nat) : SessionKeys :=
  let master := hkdfSha512 secret [] (rotationInfo n) 64
  { chacha_key := hkdfSha512 master [] chachaInfo 32
    aes_key := hkdfSha512 master [] aesInfo 32
    master_secret := master }

theorem rotateKeys_eq (km : KeyManager) (e : Nat) :
    rotateKeys km e = .ok
      { km with
        current_keys := rotationGeneration km.shared_secret (getRotationCount e)
        previous_keys := some km.current_keys } := by
  unfold rotateKeys deriveKeys rotationGeneration
  simp [bind, Except.bind, length_hkdfSha512]

/-- C1 — the HSE round trip FAILS in the source: `HSEEncryptor::decrypt`
estimates the plaintext length as `|ct| − 32`, but the combined
ciphertext only carries 16 bytes of overhead (the XOR overlays the two
16-byte tags), so the candidate window `|ct| − 42 ..= |ct| − 22` never
contains the unique length `|ct| − 16` accepted by the internal length
check.  Hence `decrypt` errors on every input, and
`decrypt_with_fallback` fails for every KeyManager, ciphertext and
nonce — in particular in the spec's seeded scenario. -/
theorem hseRoundTripFails :
    (∀ chachaKey aesKey ct nonce : List Nat,
      ∃ msg, hseDecrypt chachaKey aesKey ct nonce = .error (.Crypto msg)) ∧
    (∀ (km : KeyManager) (ct nonce : List Nat),
      decryptWithFallback km ct nonce =
        .error (.Crypto "Decryption failed with both current and previous keys")) := by
  refine ⟨hseDecrypt_never_ok, ?_⟩
  intro km ct nonce
  obtain ⟨m1, h1⟩ :=
    hseDecrypt_never_ok km.current_keys.chacha_key km.current_keys.aes_key ct nonce
  rcases hp : km.previous_keys with _ | prev
  · simp [decryptWithFallback, h1, hp]
  · obtain ⟨m2, h2⟩ := hseDecrypt_never_ok prev.chacha_key prev.aes_key ct nonce
    simp [decryptWithFallback, h1, h2, hp]

/-- C7 — the session-key schedule: `derive_session_keys` computes
`master = HKDF(secret, cr ‖ sr, "LLP-v1-master-secret", 64)`,
`chacha_key = HKDF(master, [], "LLP-chacha20-key", 32)`,
`aes_key = HKDF(master, [], "LLP-aes-key", 32)`, the outputs have the
declared lengths, and identical inputs give byte-identical outputs. -/
theorem deriveSessionKeysSchedule (s cr sr : List Nat) :
    deriveSessionKeys s cr sr = .ok
      { chacha_key := hkdfSha512 (hkdfSha512 s (cr ++ sr) masterInfo 64) [] chachaInfo 32
        aes_key := hkdfSha512 (hkdfSha512 s (cr ++ sr) masterInfo 64) [] aesInfo 32
        master_secret := hkdfSha512 s (cr ++ sr) masterInfo 64 } ∧
    (∀ keys, deriveSessionKeys s cr sr = .ok keys →
      keys.chacha_key.length = 32 ∧ keys.aes_key.length = 32 ∧
        keys.master_secret.length = 64) ∧
    (∀ s2 cr2 sr2, s2 = s → cr2 = cr → sr2 = sr →
      deriveSessionKeys s2 cr2 sr2 = deriveSessionKeys s cr sr) := by
  have hmain : deriveSessionKeys s cr sr = .ok
      { chacha_key := hkdfSha512 (hkdfSha512 s (cr ++ sr) masterInfo 64) [] chachaInfo 32
        aes_key := hkdfSha512 (hkdfSha512 s (cr ++ sr) masterInfo 64) [] aesInfo 32
        master_secret := hkdfSha512 s (cr ++ sr) masterInfo 64 } := by
    unfold deriveSessionKeys deriveKeys
    simp [bind, Except.bind, length_hkdfSha512]
  refine ⟨hmain, ?_, ?_⟩
  · intro keys hk
    rw [hmain] at hk
    simp only [Except.ok.injEq] at hk
    subst hk
    exact ⟨length_hkdfSha512 _ _ _ _, length_hkdfSha512 _ _ _ _,
      length_hkdfSha512 _ _ _ _⟩
  · intro s2 cr2 sr2 hs hcr hsr
    subst hs
    subst hcr
    subst hsr
    rfl

/-- C7 witness: the schedule at the spec's concrete seed. -/
theorem deriveSessionKeysSchedule_witness :
    ∃ keys, deriveSessionKeys (List.replicate 32 1) (List.replicate 32 2)
        (List.replicate 32 3) = .ok keys ∧
      keys.chacha_key.length = 32 ∧ keys.aes_key.length = 32 ∧
      keys.master_secret.length = 64 := by
  obtain ⟨h1, h2, h3⟩ := deriveSessionKeysSchedule (List.replicate 32 1)
    (List.replicate 32 2) (List.replicate 32 3)
  exact ⟨_, h1, h2 _ h1⟩

/-- C9 — HSE length accounting: `HSE.encrypt` returns `|pt| + 16` bytes
(each AEAD appends one 16-byte tag and the byte-wise XOR preserves
length), the decrypt-side estimate `|ct| − 32` equals `|pt| − 16`, and
any combined ciphertext of at most 32 bytes is rejected as too short. -/
theorem hseLengthContract (chachaKey aesKey pt nonce : List Nat)
    (h : 16 < pt.length) :
    (∃ ct, hseEncrypt chachaKey aesKey pt nonce = .ok ct ∧
      ct.length = pt.length + 16 ∧ ct.length - 32 = pt.length - 16) ∧
    (∀ (k1 k2 ct2 n2 : List Nat), ct2.length ≤ 32 →
      hseDecrypt k1 k2 ct2 n2 = .error (.Crypto "HSE ciphertext too short")) := by
  constructor
  · have henc : hseEncrypt chachaKey aesKey pt nonce = .ok
        (List.zipWith (· ^^^ ·) (aeadEncrypt domChaCha chachaKey nonce pt)
          (aeadEncrypt domAes aesKey nonce pt)) := by
      unfold hseEncrypt
      simp only [chachaEncrypt, aesEncrypt, bind, Except.bind]
      rw [if_neg (by rw [length_aeadEncrypt, length_aeadEncrypt]; omega)]
    refine ⟨_, henc, ?_, ?_⟩
    · rw [List.length_zipWith, length_aeadEncrypt, length_aeadEncrypt]
      omega
    · rw [List.length_zipWith, length_aeadEncrypt, length_aeadEncrypt]
      omega
  · intro k1 k2 ct2 n2 hlen
    unfold hseDecrypt
    rw [if_neg (by omega)]

/-- C9 witness: a 20-byte plaintext yields a 36-byte combined
ciphertext with estimate 4, and a 20-byte ciphertext is rejected. -/
theorem hseLengthContract_witness :
    (∃ ct, hseEncrypt (List.replicate 32 1) (List.replicate 32 2)
        (List.replicate 20 0) (List.replicate 12 0) = .ok ct ∧
      ct.length = 36 ∧ ct.length - 32 = 4) ∧
    hseDecrypt (List.replicate 32 1) (List.replicate 32 2)
        (List.replicate 20 9) (List.replicate 12 0) =
      .error (.Crypto "HSE ciphertext too short") := by
  obtain ⟨⟨ct, h1, h2, h3⟩, h4⟩ := hseLengthContract (List.replicate 32 1)
    (List.replicate 32 2) (List.replicate 20 0) (List.replicate 12 0) (by simp)
  refine ⟨⟨ct, h1, ?_, ?_⟩, h4 _ _ _ _ (by simp)⟩
  · rw [h2]
    simp
  · rw [h3]
    simp

/-- C10 — rotation index in quick succession: any `rotate_keys` call
less than 30 minutes after the previous rotation uses rotation index
`elapsed / 1800 + 1 = 1`, so two quick consecutive rotations derive
byte-identical key material and leave `current = previous`. -/
theorem rotateKeysQuickSuccession (km : KeyManager) (e1 e2 : Nat)
    (h1 : e1 < 1800) (h2 : e2 < 1800) :
    ∃ km1 km2,
      rotateKeys km e1 = .ok km1 ∧ rotateKeys km1 e2 = .ok km2 ∧
      getRotationCount e1 = 1 ∧ getRotationCount e2 = 1 ∧
      km1.current_keys = rotationGeneration km.shared_secret 1 ∧
      km2.current_keys = km1.current_keys ∧
      km2.previous_keys = some km2.current_keys := by
  have hc1 : getRotationCount e1 = 1 := by
    unfold getRotationCount KEY_ROTATION_INTERVAL_SECS
    omega
  have hc2 : getRotationCount e2 = 1 := by
    unfold getRotationCount KEY_ROTATION_INTERVAL_SECS
    omega
  refine ⟨_, _, rotateKeys_eq km e1, rotateKeys_eq _ e2, hc1, hc2, ?_, ?_, ?_⟩
  · simp [hc1]
  · simp [hc1, hc2]
  · simp [hc1, hc2]

/-- C10 witness: two immediate rotations on a concrete manager. -/
theorem rotateKeysQuickSuccession_witness :
    ∃ km1 km2,
      rotateKeys
        { current_keys := { chacha_key := [], aes_key := [], master_secret := [] }
          previous_keys := none
          shared_secret := List.replicate 32 1
          client_random := List.replicate 32 2
          server_random := List.replicate 32 3
          auto_rotation := false } 0 = .ok km1 ∧
      rotateKeys km1 0 = .ok km2 ∧
      getRotationCount 0 = 1 ∧ getRotationCount 0 = 1 ∧
      km1.current_keys = rotationGeneration (List.replicate 32 1) 1 ∧
      km2.current_keys = km1.current_keys ∧
      km2.previous_keys = some km2.current_keys :=
  rotateKeysQuickSuccession _ 0 0 (by norm_num) (by norm_num)

/-- Does a result carry the `Crypto` error variant? -/
def isCryptoError : Except LLError (List Nat) → Bool
  | .error (.Crypto _) => true
  | _ => false

set_option maxRecDepth 4000 in
/-- C5 counterexample: tampering with one ciphertext byte makes
`ChaChaEncryptor::decrypt` fail, but the failure surfaces as a
`Connection` error, not as the `Crypto` variant the claim names. -/
theorem aeadFailureNotCrypto_counterexample :
    (chachaDecrypt (List.replicate 32 1)
        ((aeadEncrypt domChaCha (List.replicate 32 1) (List.replicate 12 2) [1, 2, 3]).set 0
          ((aeadEncrypt domChaCha (List.replicate 32 1) (List.replicate 12 2) [1, 2, 3]).getD 0 0 ^^^ 1))
        (List.replicate 12 2)).isOk = false ∧
    isCryptoError (chachaDecrypt (List.replicate 32 1)
        ((aeadEncrypt domChaCha (List.replicate 32 1) (List.replicate 12 2) [1, 2, 3]).set 0
          ((aeadEncrypt domChaCha (List.replicate 32 1) (List.replicate 12 2) [1, 2, 3]).getD 0 0 ^^^ 1))
        (List.replicate 12 2)) = false := by
  constructor <;> decide

/-- C5 (amended) — AEAD authentication failure surfaces as the
`Connection` variant: whenever the modelled tag verification fails,
`ChaChaEncryptor::decrypt` returns
`Connection("ChaCha20 decryption failed…")` and `AesEncryptor::decrypt`
returns `Connection("AES-GCM decryption failed…")`; neither produces a
`Crypto` error (a variant `error.rs` does not even declare). -/
theorem aeadDecryptFailureIsConnection (key ct nonce : List Nat)
    (hc : aeadDecrypt domChaCha key nonce ct = none)
    (ha : aeadDecrypt domAes key nonce ct = none) :
    chachaDecrypt key ct nonce = .error (.Connection "ChaCha20 decryption failed") ∧
    aesDecrypt key ct nonce = .error (.Connection "AES-GCM decryption failed") ∧
    isCryptoError (chachaDecrypt key ct nonce) = false ∧
    isCryptoError (aesDecrypt key ct nonce) = false := by
  unfold chachaDecrypt aesDecrypt
  rw [hc, ha]
  exact ⟨rfl, rfl, rfl, rfl⟩

/-- C5 witness: the amended classification at a concrete tampered
ciphertext. -/
theorem aeadDecryptFailureIsConnection_witness :
    chachaDecrypt (List.replicate 32 1) [9, 9, 9] (List.replicate 12 2) =
      .error (.Connection "ChaCha20 decryption failed") ∧
    aesDecrypt (List.replicate 32 1) [9, 9, 9] (List.replicate 12 2) =
      .error (.Connection "AES-GCM decryption failed") ∧
    isCryptoError (chachaDecrypt (List.replicate 32 1) [9, 9, 9]
      (List.replicate 12 2)) = false ∧
    isCryptoError (aesDecrypt (List.replicate 32 1) [9, 9, 9]
      (List.replicate 12 2)) = false :=
  aeadDecryptFailureIsConnection (List.replicate 32 1) [9, 9, 9]
    (List.replicate 12 2) (by decide) (by decide)

/-! ## Handshake FSM (`src/server/src/protocol/handshake.rs`)

Randomness (`generate_random`, `uuid::Uuid::new_v4`) is modelled by
passing the fresh values explicitly; `&mut self` methods return the
updated `Handshake` alongside the `Result`. -/

inductive HandshakeState where
  | Init
  | ClientHelloSent
  | ServerHelloReceived
  | Completed
  | Failed
deriving DecidableEq, Repr

inductive HandshakeMessage where
  | ClientHello (client_random : List Nat) (protocol_version : Nat)
  | ServerHello (server_random : List Nat) (session_id : String)
  | ClientFinish (verification_data : List Nat)
  | ServerFinish (verification_data : List Nat)
deriving DecidableEq, Repr

structure Handshake where
  state : HandshakeState
  client_random : Option (List Nat)
  server_random : Option (List Nat)
  session_id : Option String
deriving DecidableEq, Repr

/-- `Handshake::new_server`. -/
def newServer : Handshake :=
  { state := .Init, client_random := none, server_random := none, session_id := none }

/-- `Handshake::new_client` (the constructor draws `client_random`). -/
def newClient (entropy : List Nat) : Handshake :=
  { state := .Init, client_random := some entropy, server_random := none,
    session_id := none }

/-- `Handshake::is_completed`. -/
def isCompleted (hs : Handshake) : Bool :=
  hs.state == .Completed

/-- `Handshake::generate_client_hello`; `fresh` models the
`unwrap_or_else(generate_random)` fallback draw. -/
def generateClientHello (hs : Handshake) (fresh : List Nat) :
    Handshake × Except LLError HandshakeMessage :=
  if hs.state ≠ .Init then
    (hs, .error (.HandshakeFailed "Invalid state for ClientHello"))
  else
    let clientRandom := hs.client_random.getD fresh
    ({ hs with client_random := some clientRandom, state := .ClientHelloSent },
      .ok (.ClientHello clientRandom 1))

/-- `Handshake::process_client_hello` (server side); `freshRandom` and
`freshSessionId` model the drawn `server_random` and UUID. -/
def processClientHello (hs : Handshake) (msg : HandshakeMessage)
    (freshRandom : List Nat) (freshSessionId : String) :
    Handshake × Except LLError HandshakeMessage :=
  if hs.state ≠ .Init then
    (hs, .error (.HandshakeFailed "Invalid state for processing ClientHello"))
  else
    match msg with
    | .ClientHello clientRandom protocolVersion =>
      if protocolVersion ≠ 1 then
        (hs, .error (.HandshakeFailed
          ("Unsupported protocol version: " ++ toString protocolVersion)))
      else
        ({ hs with
            client_random := some clientRandom
            server_random := some freshRandom
            session_id := some freshSessionId
            state := .ServerHelloReceived },
          .ok (.ServerHello freshRandom freshSessionId))
    | _ => (hs, .error (.HandshakeFailed "Expected ClientHello message"))

/-- `Handshake::process_server_hello` (client side). -/
def processServerHello (hs : Handshake) (msg : HandshakeMessage) :
    Handshake × Except LLError Unit :=
  if hs.state ≠ .ClientHelloSent then
    (hs, .error (.HandshakeFailed "Invalid state for processing ServerHello"))
  else
    match msg with
    | .ServerHello serverRandom sessionId =>
      ({ hs with
          server_random := some serverRandom
          session_id := some sessionId
          state := .Completed },
        .ok ())
    | _ => (hs, .error (.HandshakeFailed "Expected ServerHello message"))

/-- C4 counterexample: feeding a wrong-variant message to
`process_client_hello` in `Init` returns `HandshakeFailed` but leaves
the state at `Init` — it does NOT move the FSM to `Failed`. -/
theorem handshakeFailureStaysPut_counterexample :
    (processClientHello newServer (.ServerHello (List.replicate 32 0) "sid")
        (List.replicate 32 7) "fresh-sid").2 =
      .error (.HandshakeFailed "Expected ClientHello message") ∧
    (processClientHello newServer (.ServerHello (List.replicate 32 0) "sid")
        (List.replicate 32 7) "fresh-sid").1.state = .Init ∧
    HandshakeState.Init ≠ HandshakeState.Failed := by
  exact ⟨rfl, rfl, by decide⟩

/-- C4 (amended) — a malformed or wrong-variant message (wrong message
kind, unsupported protocol version, or a call in the wrong state)
returns a `HandshakeFailed` error with a descriptive reason and leaves
the handshake — including its state — unchanged; the FSM never enters
`Failed`. -/
theorem handshakeErrorsLeaveStateUnchanged :
    (∀ (hs : Handshake) (msg : HandshakeMessage) (fr : List Nat) (sid : String),
      (hs.state ≠ .Init ∨ ∀ cr, msg ≠ .ClientHello cr 1) →
      ∃ reason, processClientHello hs msg fr sid =
        (hs, .error (.HandshakeFailed reason))) ∧
    (∀ (hs : Handshake) (msg : HandshakeMessage),
      (hs.state ≠ .ClientHelloSent ∨ ∀ sr sid, msg ≠ .ServerHello sr sid) →
      ∃ reason, processServerHello hs msg =
        (hs, .error (.HandshakeFailed reason))) ∧
    (∀ (hs : Handshake) (fresh : List Nat), hs.state ≠ .Init →
      ∃ reason, generateClientHello hs fresh =
        (hs, .error (.HandshakeFailed reason))) := by
  refine ⟨?_, ?_, ?_⟩
  · intro hs msg fr sid hcond
    unfold processClientHello
    by_cases hst : hs.state = .Init
    · rw [if_neg (by simp [hst])]
      rcases msg with ⟨cr, v⟩ | ⟨sr, sid2⟩ | vd | vd
      · rcases hcond with hbad | hbad
        · exact absurd hst hbad
        · have hv : v ≠ 1 := by
            intro hv
            exact hbad cr (by rw [hv])
          exact ⟨"Unsupported protocol version: " ++ toString v, by simp [hv]⟩
      · exact ⟨_, rfl⟩
      · exact ⟨_, rfl⟩
      · exact ⟨_, rfl⟩
    · rw [if_pos hst]
      exact ⟨_, rfl⟩
  · intro hs msg hcond
    unfold processServerHello
    by_cases hst : hs.state = .ClientHelloSent
    · rw [if_neg (by simp [hst])]
      rcases msg with ⟨cr, v⟩ | ⟨sr, sid2⟩ | vd | vd
      · exact ⟨_, rfl⟩
      · rcases hcond with hbad | hbad
        · exact absurd hst hbad
        · exact absurd rfl (hbad sr sid2)
      · exact ⟨_, rfl⟩
      · exact ⟨_, rfl⟩
    · rw [if_pos hst]
      exact ⟨_, rfl⟩
  · intro hs fresh hst
    unfold generateClientHello
    rw [if_pos hst]
    exact ⟨_, rfl⟩

/-- C4 witness: the amended behaviour at concrete inputs — a
`ClientFinish` fed to the server and a protocol-version-2 ClientHello
both fail and leave the state unchanged. -/
theorem handshakeErrorsLeaveStateUnchanged_witness :
    (∃ reason, processClientHello newServer (.ClientFinish []) [] "sid" =
      (newServer, .error (.HandshakeFailed reason))) ∧
    (∃ reason, processClientHello newServer
        (.ClientHello (List.replicate 32 0) 2) [] "sid" =
      (newServer, .error (.HandshakeFailed reason))) := by
  constructor
  · exact handshakeErrorsLeaveStateUnchanged.1 newServer (.ClientFinish [])
      [] "sid" (Or.inr (by intro cr; simp))
  · exact handshakeErrorsLeaveStateUnchanged.1 newServer
      (.ClientHello (List.replicate 32 0) 2) [] "sid"
      (Or.inr (by intro cr; simp))

/-- C8 — handshake happy path: the client's `generate_client_hello`
moves it to `ClientHelloSent` with a version-1 ClientHello; the
server's `process_client_hello` moves it to `ServerHelloReceived` and
answers with a ServerHello carrying the session id; the client's
`process_server_hello` moves it to `Completed`, stores the server
random and session id, and `is_completed()` then holds. -/
theorem handshakeHappyPath (cr sr fresh : List Nat) (sid : String) :
    (generateClientHello (newClient cr) fresh).2 = .ok (.ClientHello cr 1) ∧
    (generateClientHello (newClient cr) fresh).1.state = .ClientHelloSent ∧
    (processClientHello newServer (.ClientHello cr 1) sr sid).2 =
      .ok (.ServerHello sr sid) ∧
    (processClientHello newServer (.ClientHello cr 1) sr sid).1.state =
      .ServerHelloReceived ∧
    (processClientHello newServer (.ClientHello cr 1) sr sid).1.session_id =
      some sid ∧
    (processServerHello (generateClientHello (newClient cr) fresh).1
        (.ServerHello sr sid)).2 = .ok () ∧
    (processServerHello (generateClientHello (newClient cr) fresh).1
        (.ServerHello sr sid)).1.state = .Completed ∧
    (processServerHello (generateClientHello (newClient cr) fresh).1
        (.ServerHello sr sid)).1.server_random = some sr ∧
    (processServerHello (generateClientHello (newClient cr) fresh).1
        (.ServerHello sr sid)).1.session_id = some sid ∧
    isCompleted (processServerHello (generateClientHello (newClient cr) fresh).1
      (.ServerHello sr sid)).1 = true := by
  refine ⟨rfl, rfl, rfl, rfl, rfl, rfl, rfl, rfl, rfl, rfl⟩

/-! ## ConnectionManager (`src/server/src/core/connection.rs`)

The `DashMap<SessionId, Arc<Connection>>` is modelled as an association
list of `(session_id, peer_addr)` pairs (the `Connection` payload
beyond its identity is irrelevant to the registry claims); the atomic
counters are plain fields updated sequentially.  Session ids come from
`Uuid::new_v4` inside `Connection::new` and are modelled as explicit
arguments. -/

/-- `DashMap::insert`: overwrite an existing key, else append. -/
def mapInsert (m : List (String × String)) (k v : String) :
    List (String × String) :=
  if m.any (fun p => p.1 == k) then
    m.map (fun p => if p.1 == k then (k, v) else p)
  else m ++ [(k, v)]

structure ConnectionManager where
  connections : List (String × String)
  max_connections : Nat
  active_count : Nat
  total_connections : Nat
deriving DecidableEq, Repr

/-- `ConnectionManager::new`. -/
def newConnectionManager (maxConnections : Nat) : ConnectionManager :=
  { connections := [], max_connections := maxConnections, active_count := 0,
    total_connections := 0 }

/-- `ConnectionManager::create_connection`: reject at capacity, else
insert the fresh session and bump both counters. -/
def createConnection (cm : ConnectionManager) (sessionId peerAddr : String) :
    ConnectionManager × Except LLError String :=
  if cm.max_connections ≤ cm.active_count then
    (cm, .error .TooManyConnections)
  else
    ({ cm with
        connections := mapInsert cm.connections sessionId peerAddr
        active_count := cm.active_count + 1
        total_connections := cm.total_connections + 1 },
      .ok sessionId)

/-- `ConnectionManager::remove_connection`: remove the entry and
decrement `active_count` iff the key existed. -/
def removeConnection (cm : ConnectionManager) (sessionId : String) :
    ConnectionManager × Option String :=
  if cm.connections.any (fun p => p.1 == sessionId) then
    ({ cm with
        connections := cm.connections.filter (fun p => !(p.1 == sessionId))
        active_count := cm.active_count - 1 },
      some sessionId)
  else (cm, none)

/-- A registry operation. -/
inductive RegistryOp where
  | create (sessionId peerAddr : String)
  | remove (sessionId : String)
deriving DecidableEq, Repr

def applyRegistryOp (cm : ConnectionManager) : RegistryOp → ConnectionManager
  | .create sid addr => (createConnection cm sid addr).1
  | .remove sid => (removeConnection cm sid).1

def runRegistry (cm : ConnectionManager) (ops : List RegistryOp) :
    ConnectionManager :=
  ops.foldl applyRegistryOp cm

/-- Every `create` in the run uses a session id not currently in the
map — the freshness `Uuid::new_v4` provides. -/
def freshRun : ConnectionManager → List RegistryOp → Bool
  | _, [] => true
  | cm, op :: ops =>
    (match op with
     | .create sid _ => !cm.connections.any (fun p => p.1 == sid)
     | .remove _ => true) && freshRun (applyRegistryOp cm op) ops

/-- The registry invariant: `active_count = |map| ≤ max_connections`,
with distinct keys. -/
def RegistryInv (cm : ConnectionManager) : Prop :=
  cm.active_count = cm.connections.length ∧
  cm.active_count ≤ cm.max_connections ∧
  (cm.connections.map Prod.fst).Nodup

theorem filter_length_of_present (m : List (String × String)) (sid : String)
    (hnd : (m.map Prod.fst).Nodup)
    (hpres : m.any (fun p => p.1 == sid) = true) :
    (m.filter (fun p => !(p.1 == sid))).length + 1 = m.length := by
  induction m with
  | nil => simp at hpres
  | cons p t ih =>
    by_cases hp : p.1 == sid
    · have hpe : p.1 = sid := by simpa using hp
      have hnotin : ∀ q ∈ t, ¬(q.1 == sid) := by
        intro q hq
        simp only [List.map_cons, List.nodup_cons] at hnd
        intro hqe
        apply hnd.1
        rw [hpe, ← (by simpa using hqe : q.1 = sid)]
        exact List.mem_map_of_mem Prod.fst hq
      have hfil : t.filter (fun p => !(p.1 == sid)) = t := by
        apply List.filter_eq_self.mpr
        intro q hq
        simpa using hnotin q hq
      simp [List.filter_cons, hp, hfil]
    · have hany : t.any (fun p => p.1 == sid) = true := by
        simp only [List.any_cons, Bool.or_eq_true] at hpres
        rcases hpres with h | h
        · exact absurd h hp
        · exact h
      have hnd' : (t.map Prod.fst).Nodup := by
        simp only [List.map_cons, List.nodup_cons] at hnd
        exact hnd.2
      have := ih hnd' hany
      simp [List.filter_cons, hp]
      omega

theorem registryInv_step (cm : ConnectionManager) (op : RegistryOp)
    (hinv : RegistryInv cm)
    (hfresh : (match op with
      | .create sid _ => !cm.connections.any (fun p => p.1 == sid)
      | .remove _ => true) = true) :
    RegistryInv (applyRegistryOp cm op) := by
  obtain ⟨hlen, hmax, hnd⟩ := hinv
  rcases op with ⟨sid, addr⟩ | sid
  · simp only [Bool.not_eq_true'] at hfresh
    simp only [applyRegistryOp, createConnection]
    by_cases hcap : cm.max_connections ≤ cm.active_count
    · rw [if_pos hcap]
      exact ⟨hlen, hmax, hnd⟩
    · rw [if_neg hcap]
      have hins : mapInsert cm.connections sid addr =
          cm.connections ++ [(sid, addr)] := by
        unfold mapInsert
        rw [if_neg (by rw [hfresh]; simp)]
      refine ⟨?_, by simp only; omega, ?_⟩
      · simp only [hins, List.length_append, List.length_singleton]
        omega
      · simp only [hins, List.map_append, List.map_cons, List.map_nil]
        rw [List.nodup_append]
        refine ⟨hnd, List.nodup_singleton _, ?_⟩
        intro x hx hmem
        have hxs : x = sid := by simpa using hmem
        rcases List.mem_map.mp hx with ⟨q, hq, hqe⟩
        have hany : cm.connections.any (fun p => p.1 == sid) = true :=
          List.any_eq_true.mpr ⟨q, hq, by simp [hqe, ← hxs]⟩
        rw [hfresh] at hany
        exact absurd hany (by simp)
  · simp only [applyRegistryOp, removeConnection]
    by_cases hpres : cm.connections.any (fun p => p.1 == sid) = true
    · rw [if_pos hpres]
      have hflen := filter_length_of_present cm.connections sid hnd hpres
      refine ⟨by simp only; omega, by simp only; omega, ?_⟩
      · simp only
        apply List.Nodup.sublist _ hnd
        exact List.Sublist.map Prod.fst (List.filter_sublist _)
    · rw [if_neg hpres]
      exact ⟨hlen, hmax, hnd⟩

/-- C6 — the connection registry: the invariant
`active_count = |map| ≤ max_connections` holds initially and is
preserved by any sequence of creates (with fresh ids) and removes; a
create at capacity returns `TooManyConnections` and changes nothing; a
successful create bumps `active_count` and `total_connections` by one;
a remove decrements `active_count` iff the key existed. -/
theorem connectionRegistryInvariant :
    (∀ (cm : ConnectionManager) (ops : List RegistryOp), RegistryInv cm →
      freshRun cm ops = true → RegistryInv (runRegistry cm ops)) ∧
    (∀ maxConn, RegistryInv (newConnectionManager maxConn)) ∧
    (∀ cm sid addr, cm.max_connections ≤ cm.active_count →
      createConnection cm sid addr = (cm, .error .TooManyConnections)) ∧
    (∀ cm sid addr, cm.active_count < cm.max_connections →
      (createConnection cm sid addr).2 = .ok sid ∧
      (createConnection cm sid addr).1.active_count = cm.active_count + 1 ∧
      (createConnection cm sid addr).1.total_connections =
        cm.total_connections + 1) ∧
    (∀ cm sid,
      (cm.connections.any (fun p => p.1 == sid) = true →
        (removeConnection cm sid).1.active_count = cm.active_count - 1) ∧
      (cm.connections.any (fun p => p.1 == sid) = false →
        (removeConnection cm sid).1 = cm)) := by
  refine ⟨?_, ?_, ?_, ?_, ?_⟩
  · intro cm ops
    induction ops generalizing cm with
    | nil => exact fun hinv _ => hinv
    | cons op ops ih =>
      intro hinv hfr
      unfold freshRun at hfr
      rw [Bool.and_eq_true] at hfr
      exact ih _ (registryInv_step cm op hinv hfr.1) hfr.2
  · intro maxConn
    exact ⟨rfl, by simp [newConnectionManager], by simp [newConnectionManager]⟩
  · intro cm sid addr hcap
    unfold createConnection
    rw [if_pos hcap]
  · intro cm sid addr hcap
    unfold createConnection
    rw [if_neg (by omega)]
    exact ⟨rfl, rfl, rfl⟩
  · intro cm sid
    constructor
    · intro hpres
      unfold removeConnection
      rw [if_pos hpres]
    · intro habs
      unfold removeConnection
      rw [if_neg (by rw [habs]; simp)]

/-- C6 witness: the spec's bounded-registry scenario with
`max_connections = 2`. -/
theorem connectionRegistryInvariant_witness :
    RegistryInv (runRegistry (newConnectionManager 2)
      [.create "a" "p1", .create "b" "p2", .remove "a", .create "c" "p3"]) ∧
    createConnection (runRegistry (newConnectionManager 2)
        [.create "a" "p1", .create "b" "p2"]) "c" "p3" =
      (runRegistry (newConnectionManager 2)
        [.create "a" "p1", .create "b" "p2"], .error .TooManyConnections) := by
  constructor
  · exact connectionRegistryInvariant.1 (newConnectionManager 2)
      [.create "a" "p1", .create "b" "p2", .remove "a", .create "c" "p3"]
      (connectionRegistryInvariant.2.1 2) (by decide)
  · exact connectionRegistryInvariant.2.2.1 _ "c" "p3" (by decide)

end LLP
